import Mathlib

/-!
Shallow embedding of `python-memory-instrument` (memory_tracker) and proofs
about its source-rewriting pass, import interception, runtime probe,
event pipeline and persistence backends.
-/

/-- Python expressions, restricted to the shapes the instrumentor inspects:
decorator expressions are `ast.Name` or `ast.Attribute`; module docstrings
are string `ast.Constant`s wrapped in `ast.Expr`. Everything else is
collapsed into `other` because the transformer never looks inside it. -/
inductive Expr where
  | name (id : String)
  | attribute (value : Expr) (attr : String)
  | constantStr (s : String)
  | constantOther
  | other
deriving DecidableEq, Repr

/-- Python statements as the instrumentor sees them. Function-like
definitions carry their decorator list and body; `importFrom` mirrors
`ast.ImportFrom` (module may be `None` for relative imports), `importStmt`
mirrors `ast.Import`; aliases are `(name, asname)` pairs. `compound`
stands for any other statement with nested statement blocks (if, while,
for, with, try), which `generic_visit` recurses into. -/
inductive Stmt where
  | functionDef (name : String) (deco : List Expr) (body : List Stmt)
  | asyncFunctionDef (name : String) (deco : List Expr) (body : List Stmt)
  | classDef (name : String) (deco : List Expr) (body : List Stmt)
  | importFrom (module : Option String) (names : List (String × Option String)) (level : Nat)
  | importStmt (names : List (String × Option String))
  | exprStmt (e : Expr)
  | compound (body : List Stmt) (orelse : List Stmt)
  | other
deriving Repr

/-- One decorator matches the known set when it is `ast.Name` with `id` in
the set, or `ast.Attribute` with `attr` in the set
(`DecoratorInjector._has_decorator`, per-element test). -/
def decorator_matches (known : List String) : Expr → Bool
  | .name id => known.contains id
  | .attribute _ attr => known.contains attr
  | _ => false

/-- Embedding of `DecoratorInjector._has_decorator`: does the node already
carry any of the known decorators. -/
def has_decorator (known : List String) (decs : List Expr) : Bool :=
  decs.any (decorator_matches known)

mutual
/-- Embedding of `DecoratorInjector.visit` on one statement. The only
custom visitors are `visit_FunctionDef` and `visit_AsyncFunctionDef`: each
first calls `generic_visit` on children, then, when `_has_decorator` is
false, runs `decorator_list.insert(0, ast.Name(id=decorator_name))`,
which places the new decorator at the HEAD of the list. All other
statements get `generic_visit`, which rebuilds them with visited children
and otherwise leaves them unchanged. -/
def visit_stmt (known : List String) (dec : String) : Stmt → Stmt
  | .functionDef n d b =>
      let b' := visit_stmts known dec b
      if has_decorator known d then .functionDef n d b'
      else .functionDef n (Expr.name dec :: d) b'
  | .asyncFunctionDef n d b =>
      let b' := visit_stmts known dec b
      if has_decorator known d then .asyncFunctionDef n d b'
      else .asyncFunctionDef n (Expr.name dec :: d) b'
  | .classDef n d b => .classDef n d (visit_stmts known dec b)
  | .compound b o => .compound (visit_stmts known dec b) (visit_stmts known dec o)
  | .importFrom m ns l => .importFrom m ns l
  | .importStmt ns => .importStmt ns
  | .exprStmt e => .exprStmt e
  | .other => .other

/-- Visiting a statement list (a body, or the module body through
`generic_visit` on `ast.Module`). -/
def visit_stmts (known : List String) (dec : String) : List Stmt → List Stmt
  | [] => []
  | s :: rest => visit_stmt known dec s :: visit_stmts known dec rest
end

/-- The Instrumentation Marker Set passed to `DecoratorInjector` by
`instrument_source`. -/
def markerSet : List String :=
  ["m__mp_profile", "tracked_profile", "property", "setter", "getter",
   "delete", "staticmethod"]

/-- The decorator name injected by `instrument_source`. -/
def probeName : String := "m__mp_profile"

/-- Decorator list of a statement (empty for non-decorable statements). -/
def stmt_decorators : Stmt → List Expr
  | .functionDef _ d _ => d
  | .asyncFunctionDef _ d _ => d
  | .classDef _ d _ => d
  | _ => []

/-- A statement is recognised as the module docstring when it is an
`ast.Expr` whose value is a string `ast.Constant`
(`find_insertion_index_for_imports`, first check, position 0 only). -/
def is_docstring : Stmt → Bool
  | .exprStmt (.constantStr _) => true
  | _ => false

/-- A statement is a `from __future__ import ...` when it is an
`ast.ImportFrom` whose `module` is the string `__future__`
(`find_insertion_index_for_imports`, while-loop test). -/
def is_future_import : Stmt → Bool
  | .importFrom (some "__future__") _ _ => true
  | _ => false

/-- Length of the leading run of future imports (the while loop of
`find_insertion_index_for_imports` counted from its start index). -/
def count_leading_futures : List Stmt → Nat
  | [] => 0
  | s :: rest => if is_future_import s then count_leading_futures rest + 1 else 0

/-- Embedding of `find_insertion_index_for_imports`: skip the initial
docstring if present, then skip the leading run of
`from __future__ import ...` statements. -/
def find_insertion_index_for_imports (body : List Stmt) : Nat :=
  match body with
  | [] => 0
  | first :: rest =>
      if is_docstring first then 1 + count_leading_futures rest
      else count_leading_futures (first :: rest)

/-- Python's `list.insert(idx, x)` (index already nonnegative here; an
index past the end appends, as in Python). -/
def list_insert : Nat → Stmt → List Stmt → List Stmt
  | 0, s, l => s :: l
  | _ + 1, s, [] => [s]
  | n + 1, s, x :: xs => x :: list_insert n s xs

/-- The scan of `ensure_module_import` over one node: an `ast.ImportFrom`
whose `module` equals `module_name` and whose aliases contain
`alias_name`, or an `ast.Import` whose aliases contain `module_name`,
already satisfies the import requirement. -/
def import_satisfied (module_name alias_name : String) : Stmt → Bool
  | .importFrom m names _ =>
      m == some module_name && names.any (fun a => a.1 == alias_name)
  | .importStmt names => names.any (fun a => a.1 == module_name)
  | _ => false

/-- Whether the module body already contains a matching import (the
early-return loop of `ensure_module_import`). -/
def has_matching_import (body : List Stmt) (module_name alias_name : String) : Bool :=
  body.any (import_satisfied module_name alias_name)

/-- The `ast.ImportFrom` node that `ensure_module_import` builds:
`from <module_name> import <alias_name> as <asname>` at level 0. -/
def probe_import_node (module_name alias_name asname : String) : Stmt :=
  .importFrom (some module_name) [(alias_name, some asname)] 0

/-- Embedding of `ensure_module_import`: if a matching import already
exists, return the body unchanged; otherwise insert the import node at
the computed insertion index. -/
def ensure_module_import (body : List Stmt) (module_name alias_name asname : String) :
    List Stmt :=
  if has_matching_import body module_name alias_name then body
  else list_insert (find_insertion_index_for_imports body)
    (probe_import_node module_name alias_name asname) body

/-- The AST part of `instrument_source`: ensure the probe import
`from memory_tracker.profiler import tracked_profile as m__mp_profile`,
then run `DecoratorInjector` with the marker set and `m__mp_profile`
over the module body. (Parsing, `fix_missing_locations` and `compile`
carry no AST content.) -/
def instrument_tree (body : List Stmt) : List Stmt :=
  visit_stmts markerSet probeName
    (ensure_module_import body "memory_tracker.profiler" "tracked_profile" probeName)

/-- Python `str.startswith` on absolute paths, as character sequences. -/
def str_starts_with (s pre : String) : Bool := pre.data.isPrefixOf s.data

/-- Python `str.endswith` on absolute paths, as character sequences. -/
def str_ends_with (s suf : String) : Bool := suf.data.isSuffixOf s.data

/-- Embedding of `SourceTransformImporter.find_spec`. The inputs are the
finder's absolute `base_path` and the absolute origin resolved by
`PathFinder.find_spec` (`none` when resolution fails or the spec has no
origin). The importer claims the load (returns the origin it will
transform) exactly when the origin string starts with `base_path` and
ends with `.py`; otherwise it declines (`none`). -/
def find_spec (base_path : String) (resolved_origin : Option String) : Option String :=
  match resolved_origin with
  | none => none
  | some origin =>
      if !str_starts_with origin base_path then none
      else if !str_ends_with origin ".py" then none
      else some origin

/-- Modelled from the spec's words (refinement reading only, not from the
source): a file path lies inside a base DIRECTORY when the base path
followed by the path separator is a prefix of it; it lies outside the
directory otherwise. This is the directory-containment notion the spec's
"outside `baseDirectory`" denotes, to be compared with the string-prefix
test the code performs. -/
def outside_base_directory (base p : String) : Bool :=
  !str_starts_with p (base ++ "/")

/-- Errors the embedded Python fragments can raise. `attributeError obj
attr` models `AttributeError: module 'obj' has no attribute 'attr'`. -/
inductive PyErr where
  | attributeError (objName attrName : String)
deriving DecidableEq, Repr

/-- The public attributes of CPython's `importlib.util` module (stable
across 3.5–3.13). The point this list witnesses: there is no attribute
named `exec_module` in `importlib.util`. -/
def importlib_util_attrs : List String :=
  ["MAGIC_NUMBER", "cache_from_source", "decode_source", "find_spec",
   "module_from_spec", "module_for_loader", "resolve_name", "set_loader",
   "set_package", "source_from_cache", "source_hash",
   "spec_from_file_location", "spec_from_loader", "LazyLoader"]

/-- Evaluating the attribute access `importlib.util.exec_module` and, if
it resolves, applying it to execute the module's original source. -/
def importlib_util_exec_module (src : String) : Except PyErr String :=
  if importlib_util_attrs.contains "exec_module" then .ok src
  else .error (.attributeError "importlib.util" "exec_module")

/-- How a claimed module load ended: the namespace executed the
transformed code, or fell back to the original source text. -/
inductive LoadOutcome where
  | transformed (code : String)
  | original (src : String)
deriving DecidableEq, Repr

/-- Embedding of `SourceTransformImporter.exec_module` for a claimed load.
`origin_path` is `getattr(module.__spec__, 'origin_path', None)`; `src`
is the file's text; `transform` is `instrument_source` returning either a
code object (kept as text here) or an exception. When the transform
raises, the except-branch prints a diagnostic and then runs
`importlib.util.exec_module(module)` — an attribute access on
`importlib.util` — as the fallback; the same call is the fallback when
`origin_path` is missing. -/
def exec_module (origin_path : Option String) (src : String)
    (transform : String → Except String String) : Except PyErr LoadOutcome :=
  match origin_path with
  | none => (importlib_util_exec_module src).map .original
  | some _ =>
      match transform src with
      | .ok code => .ok (.transformed code)
      | .error _ => (importlib_util_exec_module src).map .original

/-- ProfileEntry as assembled by `tracked_profile` (memory figures in MB;
modelled as exact rationals, the floats carry no rounding the claims
depend on). -/
structure ProfileEntry where
  func : String
  mem_before : ℚ
  mem_after : ℚ
  mem_diff : ℚ
  timestamp : ℚ
  log : String
deriving DecidableEq, Repr

/-- Embedding of the `wrapper` closure built by `tracked_profile` for one
invocation. The ambient samples (`time.time()`, the two `memory_usage`
readings, the text the profiler wrote to the stream) are parameters;
`call` is the wrapped callable, which either returns a value or raises.
The result pairs the returned value with the list of entries emitted to
`ProfileManager().emit` during the invocation; a raise propagates
unchanged and reaches no emit (the emit sits after the call, and the
wrapper has no handler). -/
def tracked_profile {α β E : Type} (func_qualname : String) (start : ℚ)
    (mem_before mem_after : ℚ) (profile_log : String)
    (call : α → Except E β) (x : α) : Except E (β × List ProfileEntry) :=
  match call x with
  | .error e => .error e
  | .ok r =>
      .ok (r,
        [{ func := func_qualname, mem_before := mem_before,
           mem_after := mem_after, mem_diff := mem_after - mem_before,
           timestamp := start, log := profile_log }])

/-- Entries emitted by one wrapper invocation (empty when it raised). -/
def emitted_entries {β E : Type} : Except E (β × List ProfileEntry) → List ProfileEntry
  | .error _ => []
  | .ok (_, l) => l

/-- Main loop of `ProfileManager._worker` run over a fixed queue content
(`none` is the shutdown sentinel). The loop re-checks `_stop_event`
before every dequeue; `k` is the number of iterations performed before
the flag is observed set — the scheduling of `shutdown` relative to the
worker, quantified over below. On the sentinel it breaks, leaving the
rest of the queue for the drain phase; otherwise it hands the entry to
the handler and keeps the order. Returns (entries handled, queue
remainder). -/
def worker_main {α : Type} : Nat → List (Option α) → List α × List (Option α)
  | 0, q => ([], q)
  | _ + 1, [] => ([], [])
  | _ + 1, none :: rest => ([], rest)
  | k + 1, some e :: rest =>
      let hr := worker_main k rest
      (e :: hr.1, hr.2)

/-- Drain phase of `ProfileManager._worker`: after the main loop ends, a
`get_nowait` loop empties the queue, handing every non-sentinel entry to
the handler. -/
def worker_drain {α : Type} (q : List (Option α)) : List α := q.filterMap id

/-- The whole of `ProfileManager._worker`: entries handed to
`handler.handle`, in order, over the worker's life. -/
def worker_run {α : Type} (k : Nat) (q : List (Option α)) : List α :=
  (worker_main k q).1 ++ worker_drain (worker_main k q).2

/-- Queue content after `emit`ting `es` in order and then calling
`shutdown`, which sets the stop flag and enqueues the `None` sentinel
(`self._queue.put_nowait(None)`). -/
def shutdown_queue {α : Type} (es : List α) : List (Option α) :=
  es.map some ++ [none]

/-- Row of the `logs` table: `hash TEXT PRIMARY KEY, log_text TEXT`. -/
structure LogRow where
  hash : String
  log_text : String
deriving DecidableEq, Repr

/-- Row of the `entries` table (the autoincrement id is the list
position). -/
structure EntryRow where
  func : String
  mem_before : ℚ
  mem_after : ℚ
  mem_diff : ℚ
  timestamp : ℚ
  log_hash : String
deriving DecidableEq, Repr

/-- State of the SQLite database: the two tables. -/
structure ProfileDB where
  logs : List LogRow
  entries : List EntryRow
deriving DecidableEq, Repr

/-- Fresh database right after `_create_tables`. -/
def emptyDB : ProfileDB := ⟨[], []⟩

/-- `INSERT OR IGNORE INTO logs`: a PRIMARY KEY hit on `hash` makes the
insert a no-op; otherwise the row is appended. -/
def insert_or_ignore_log (logs : List LogRow) (h text : String) : List LogRow :=
  if logs.any (fun r => r.hash == h) then logs
  else logs ++ [⟨h, text⟩]

/-- Embedding of `SQLiteProfileHandler.handle`, parametric in the digest
function `hashFn` standing for `_hash_log` (SHA-256 hex digest of the
UTF-8 text — a function of the text alone; every property below holds
for an arbitrary function in its place). One call inserts the log row
if absent and always appends one entries row referencing the hash. -/
def sqlite_handle (hashFn : String → String) (db : ProfileDB) (e : ProfileEntry) :
    ProfileDB :=
  let h := hashFn e.log
  { logs := insert_or_ignore_log db.logs h e.log,
    entries := db.entries ++
      [⟨e.func, e.mem_before, e.mem_after, e.mem_diff, e.timestamp, h⟩] }

/-! Theorems. -/

/-- C1 counterexample. The claim says the injected probe reference is the
decorator applied closest to the function body (the last element of the
decorator list). On a function with one pre-existing decorator `@cache`
and no exemption marker, the transform yields decorator list
`[m__mp_profile, cache]` — `insert(0, ...)` put the probe at the head
(outermost), so the innermost decorator is still `cache`, not the probe. -/
theorem c1_counterexample :
    has_decorator markerSet [Expr.name "cache"] = false ∧
    (stmt_decorators (visit_stmt markerSet probeName
        (Stmt.functionDef "f" [Expr.name "cache"] []))).getLast?
      ≠ some (Expr.name probeName) := by
  constructor
  · decide
  · decide

/-- C1 (amended): for every function definition, ordinary or
asynchronous, that carries no exemption marker, the transform applies
the probe decorator as the OUTERMOST wrapper: the probe reference is
prepended at the head of the decorator list, so the probe wraps the
callable produced by all pre-existing decorators. -/
theorem c1_probe_outermost (n : String) (d : List Expr) (b : List Stmt)
    (h : has_decorator markerSet d = false) :
    visit_stmt markerSet probeName (Stmt.functionDef n d b)
        = Stmt.functionDef n (Expr.name probeName :: d)
            (visit_stmts markerSet probeName b)
    ∧ visit_stmt markerSet probeName (Stmt.asyncFunctionDef n d b)
        = Stmt.asyncFunctionDef n (Expr.name probeName :: d)
            (visit_stmts markerSet probeName b) := by
  constructor <;> simp [visit_stmt, h]

/-- C1 witness: the amended statement evaluated on a concrete function
with one pre-existing decorator. -/
theorem c1_probe_outermost_witness :
    visit_stmt markerSet probeName (Stmt.functionDef "f" [Expr.name "cache"] [])
        = Stmt.functionDef "f" [Expr.name probeName, Expr.name "cache"] []
    ∧ visit_stmt markerSet probeName
          (Stmt.asyncFunctionDef "f" [Expr.name "cache"] [])
        = Stmt.asyncFunctionDef "f" [Expr.name probeName, Expr.name "cache"] [] := by
  have h := c1_probe_outermost "f" [Expr.name "cache"] [] (by decide)
  simpa [visit_stmts] using h

/-- C8: a function definition, ordinary or asynchronous, that already
carries a decorator whose name is in the Instrumentation Marker Set is
left with its decorator list untouched — no probe decorator is injected
on it. -/
theorem c8_marker_exempt (n : String) (d : List Expr) (b : List Stmt)
    (h : has_decorator markerSet d = true) :
    visit_stmt markerSet probeName (Stmt.functionDef n d b)
        = Stmt.functionDef n d (visit_stmts markerSet probeName b)
    ∧ visit_stmt markerSet probeName (Stmt.asyncFunctionDef n d b)
        = Stmt.asyncFunctionDef n d (visit_stmts markerSet probeName b) := by
  constructor <;> simp [visit_stmt, h]

/-- C8 witness: a `@property` function and an async `@mod.tracked_profile`
function keep their decorator lists. -/
theorem c8_marker_exempt_witness :
    visit_stmt markerSet probeName
        (Stmt.functionDef "f" [Expr.name "property"] [])
      = Stmt.functionDef "f" [Expr.name "property"] []
    ∧ visit_stmt markerSet probeName
        (Stmt.asyncFunctionDef "g"
          [Expr.attribute (Expr.name "mod") "tracked_profile"] [])
      = Stmt.asyncFunctionDef "g"
          [Expr.attribute (Expr.name "mod") "tracked_profile"] [] := by
  have h1 := c8_marker_exempt "f" [Expr.name "property"] [] (by decide)
  have h2 := c8_marker_exempt "g"
    [Expr.attribute (Expr.name "mod") "tracked_profile"] [] (by decide)
  exact ⟨by simpa [visit_stmts] using h1.1, by simpa [visit_stmts] using h2.2⟩

/-- Helper: when the injected decorator name itself belongs to the known
set, a decorator list that starts with it passes `_has_decorator`. -/
theorem has_decorator_cons_probe (known : List String) (dec : String)
    (hmem : known.contains dec = true) (d : List Expr) :
    has_decorator known (Expr.name dec :: d) = true := by
  simp [has_decorator, decorator_matches]
  exact Or.inl (by simpa using hmem)

mutual
/-- Helper: one injector pass is idempotent on a statement, provided the
injected decorator name is itself in the known set. -/
theorem visit_stmt_idem (known : List String) (dec : String)
    (hmem : known.contains dec = true) :
    ∀ s : Stmt, visit_stmt known dec (visit_stmt known dec s) = visit_stmt known dec s
  | .functionDef n d b => by
      by_cases hd : has_decorator known d
      · simp [visit_stmt, hd, visit_stmts_idem known dec hmem b]
      · simp [visit_stmt, hd, has_decorator_cons_probe known dec hmem,
          visit_stmts_idem known dec hmem b]
  | .asyncFunctionDef n d b => by
      by_cases hd : has_decorator known d
      · simp [visit_stmt, hd, visit_stmts_idem known dec hmem b]
      · simp [visit_stmt, hd, has_decorator_cons_probe known dec hmem,
          visit_stmts_idem known dec hmem b]
  | .classDef n d b => by
      simp [visit_stmt, visit_stmts_idem known dec hmem b]
  | .compound b o => by
      simp [visit_stmt, visit_stmts_idem known dec hmem b,
        visit_stmts_idem known dec hmem o]
  | .importFrom m ns l => rfl
  | .importStmt ns => rfl
  | .exprStmt e => rfl
  | .other => rfl

/-- Helper: idempotence of the injector pass on statement lists. -/
theorem visit_stmts_idem (known : List String) (dec : String)
    (hmem : known.contains dec = true) :
    ∀ l : List Stmt,
      visit_stmts known dec (visit_stmts known dec l) = visit_stmts known dec l
  | [] => rfl
  | s :: rest => by
      simp [visit_stmts, visit_stmt_idem known dec hmem s,
        visit_stmts_idem known dec hmem rest]
end

/-- Helper: the injector pass never changes whether a statement is a
matching import (imports map to themselves; nothing else ever matches). -/
theorem import_satisfied_visit (known : List String) (dec m a : String) :
    ∀ s : Stmt, import_satisfied m a (visit_stmt known dec s) = import_satisfied m a s := by
  intro s
  cases s with
  | functionDef n d b => simp only [visit_stmt]; split <;> rfl
  | asyncFunctionDef n d b => simp only [visit_stmt]; split <;> rfl
  | classDef n d b => rfl
  | importFrom m2 ns l => rfl
  | importStmt ns => rfl
  | exprStmt e => rfl
  | compound b o => rfl
  | other => rfl

/-- Helper: the injector pass preserves `has_matching_import`. -/
theorem has_matching_import_visit (known : List String) (dec m a : String)
    (body : List Stmt) :
    has_matching_import (visit_stmts known dec body) m a
      = has_matching_import body m a := by
  induction body with
  | nil => rfl
  | cons s rest ih =>
      simp only [visit_stmts, has_matching_import, List.any_cons] at *
      rw [import_satisfied_visit, ih]

/-- Helper: inserting a node that satisfies a predicate makes `any` true. -/
theorem any_list_insert (p : Stmt → Bool) (node : Stmt) (h : p node = true) :
    ∀ (n : Nat) (body : List Stmt), (list_insert n node body).any p = true
  | 0, body => by simp [list_insert, h]
  | _ + 1, [] => by simp [list_insert, h]
  | n + 1, x :: xs => by
      simp [list_insert, List.any_cons, any_list_insert p node h n xs]

/-- Helper: the node built by `ensure_module_import` satisfies its own
matching test. -/
theorem import_satisfied_probe_node (m a asn : String) :
    import_satisfied m a (probe_import_node m a asn) = true := by
  simp [import_satisfied, probe_import_node]

/-- Helper: after `ensure_module_import`, a matching import is present. -/
theorem ensure_has_match (body : List Stmt) (m a asn : String) :
    has_matching_import (ensure_module_import body m a asn) m a = true := by
  unfold ensure_module_import
  by_cases h : has_matching_import body m a = true
  · simp [h]
  · rw [if_neg h]
    unfold has_matching_import
    exact any_list_insert _ _ (import_satisfied_probe_node m a asn) _ _

/-- Helper: `ensure_module_import` leaves the body unchanged when a
matching import is already present (the early-return loop). -/
theorem ensure_noop_of_match (body : List Stmt) (m a asn : String)
    (h : has_matching_import body m a = true) :
    ensure_module_import body m a asn = body := by
  unfold ensure_module_import
  simp [h]

/-- C4: the transform is idempotent. First conjunct: running the AST part
of `instrument_source` a second time on the output of a first run
changes nothing — no additional probe decorator on any function and no
second probe import. Second conjunct: the import-ensuring step performs
no change whenever a matching import (by module and name) is already
present. -/
theorem c4_transform_idempotent :
    (∀ body : List Stmt, instrument_tree (instrument_tree body) = instrument_tree body)
    ∧ (∀ (body : List Stmt) (m a asn : String),
        has_matching_import body m a = true →
          ensure_module_import body m a asn = body) := by
  constructor
  · intro body
    unfold instrument_tree
    have h1 : has_matching_import
        (visit_stmts markerSet probeName
          (ensure_module_import body "memory_tracker.profiler" "tracked_profile" probeName))
        "memory_tracker.profiler" "tracked_profile" = true := by
      rw [has_matching_import_visit]
      exact ensure_has_match body _ _ _
    rw [ensure_noop_of_match _ _ _ _ h1]
    exact visit_stmts_idem markerSet probeName (by decide) _
  · intro body m a asn h
    exact ensure_noop_of_match body m a asn h

/-- C4 witness: idempotence evaluated on a concrete one-function module,
and the no-change branch evaluated on a module already holding the
matching import. -/
theorem c4_transform_idempotent_witness :
    instrument_tree (instrument_tree [Stmt.functionDef "f" [] []])
        = instrument_tree [Stmt.functionDef "f" [] []]
    ∧ ensure_module_import
          [probe_import_node "memory_tracker.profiler" "tracked_profile" probeName]
          "memory_tracker.profiler" "tracked_profile" probeName
        = [probe_import_node "memory_tracker.profiler" "tracked_profile" probeName] :=
  ⟨c4_transform_idempotent.1 [Stmt.functionDef "f" [] []],
   c4_transform_idempotent.2 _ _ _ probeName (by decide)⟩

/-- Helper: a future import is never the docstring shape. -/
theorem is_docstring_of_future (s : Stmt) (h : is_future_import s = true) :
    is_docstring s = false := by
  cases s with
  | importFrom m ns l => rfl
  | _ => simp [is_future_import] at h

/-- Helper: the leading-futures count of a run of future imports followed
by a body whose head is not a future import is the run's length. -/
theorem count_leading_futures_append (futures rest : List Stmt)
    (hf : ∀ f ∈ futures, is_future_import f = true)
    (hr : ∀ s, rest.head? = some s → is_future_import s = false) :
    count_leading_futures (futures ++ rest) = futures.length := by
  induction futures with
  | nil =>
      cases rest with
      | nil => rfl
      | cons s t => simp [count_leading_futures, hr s rfl]
  | cons f fs ih =>
      have hfut : is_future_import f = true := hf f (by simp)
      have ih2 := ih (fun x hx => hf x (by simp [hx]))
      simp only [List.cons_append, count_leading_futures, hfut, if_true,
        List.length_cons, List.append_eq]
      omega

/-- Helper: Python list insertion at the length of a left part lands the
node between the two parts. -/
theorem list_insert_append (x : Stmt) (l1 l2 : List Stmt) :
    list_insert l1.length x (l1 ++ l2) = l1 ++ x :: l2 := by
  induction l1 with
  | nil => cases l2 <;> rfl
  | cons y ys ih => simp [list_insert, ih]

/-- Helper: the insertion index of a well-formed module prefix. -/
theorem find_insertion_index_decomp (doc futures rest : List Stmt)
    (hdoc : doc = [] ∨ ∃ d, doc = [d] ∧ is_docstring d = true)
    (hf : ∀ f ∈ futures, is_future_import f = true)
    (hr : ∀ s, rest.head? = some s → is_future_import s = false)
    (hrd : doc = [] → futures = [] → ∀ s, rest.head? = some s → is_docstring s = false) :
    find_insertion_index_for_imports (doc ++ futures ++ rest)
      = doc.length + futures.length := by
  rcases hdoc with hnil | ⟨d, hd, hds⟩
  · subst hnil
    cases futures with
    | nil =>
        cases rest with
        | nil => rfl
        | cons s t =>
            have h1 : is_docstring s = false := hrd rfl rfl s rfl
            have h2 : is_future_import s = false := hr s rfl
            simp [find_insertion_index_for_imports, count_leading_futures, h1, h2]
    | cons f fs =>
        have hfut : is_future_import f = true := hf f (by simp)
        have hds : is_docstring f = false := is_docstring_of_future f hfut
        simp only [List.nil_append, List.cons_append,
          find_insertion_index_for_imports, hds, Bool.false_eq_true, if_false,
          List.length_nil, List.length_cons, Nat.zero_add]
        rw [show f :: (fs ++ rest) = (f :: fs) ++ rest from rfl]
        exact count_leading_futures_append (f :: fs) rest hf hr
  · subst hd
    have hc := count_leading_futures_append futures rest hf hr
    simp only [List.cons_append, List.nil_append,
      find_insertion_index_for_imports, hds, if_true, List.length_cons,
      List.length_nil, Nat.zero_add]
    omega

/-- C10: when `instrument_source` inserts the probe import into a module
— module body of the form docstring (optional), then the leading run of
`from __future__ import ...` statements, then everything else, with no
matching import present — the import node is placed after the docstring
and after every future import, and before all other statements. -/
theorem c10_import_placement (doc futures rest : List Stmt)
    (hdoc : doc = [] ∨ ∃ d, doc = [d] ∧ is_docstring d = true)
    (hf : ∀ f ∈ futures, is_future_import f = true)
    (hr : ∀ s, rest.head? = some s → is_future_import s = false)
    (hrd : doc = [] → futures = [] → ∀ s, rest.head? = some s → is_docstring s = false)
    (hnom : has_matching_import (doc ++ futures ++ rest)
      "memory_tracker.profiler" "tracked_profile" = false) :
    ensure_module_import (doc ++ futures ++ rest)
        "memory_tracker.profiler" "tracked_profile" probeName
      = doc ++ futures ++
          (probe_import_node "memory_tracker.profiler" "tracked_profile" probeName
            :: rest) := by
  have hneg : ¬ (has_matching_import (doc ++ futures ++ rest)
      "memory_tracker.profiler" "tracked_profile" = true) := by
    rw [hnom]
    simp
  unfold ensure_module_import
  rw [if_neg hneg]
  rw [find_insertion_index_decomp doc futures rest hdoc hf hr hrd]
  rw [show doc.length + futures.length = (doc ++ futures).length by simp]
  exact list_insert_append _ (doc ++ futures) rest

/-- C10 witness: a module with a docstring, one future import and one
ordinary statement receives the probe import at index 2. -/
theorem c10_import_placement_witness :
    ensure_module_import
        [Stmt.exprStmt (Expr.constantStr "doc"),
         Stmt.importFrom (some "__future__") [("annotations", none)] 0,
         Stmt.exprStmt Expr.other]
        "memory_tracker.profiler" "tracked_profile" probeName
      = [Stmt.exprStmt (Expr.constantStr "doc"),
         Stmt.importFrom (some "__future__") [("annotations", none)] 0,
         probe_import_node "memory_tracker.profiler" "tracked_profile" probeName,
         Stmt.exprStmt Expr.other] := by
  have h := c10_import_placement
    [Stmt.exprStmt (Expr.constantStr "doc")]
    [Stmt.importFrom (some "__future__") [("annotations", none)] 0]
    [Stmt.exprStmt Expr.other]
    (Or.inr ⟨_, rfl, rfl⟩)
    (by intro f hf; simp at hf; subst hf; rfl)
    (by intro s hs; simp at hs; subst hs; rfl)
    (by intro h1; simp at h1)
    (by decide)
  simpa using h

/-- C5 counterexample. The claim says every load whose resolved origin
lies outside the configured base directory is declined. With base
directory `/tmp/app`, the origin `/tmp/app_lib/mod.py` lies outside the
directory (it is in the sibling directory `/tmp/app_lib`), yet
`find_spec` claims the load — `startswith` is a string-prefix test, and
`/tmp/app` is a string prefix of `/tmp/app_lib/mod.py`. -/
theorem c5_counterexample :
    outside_base_directory "/tmp/app" "/tmp/app_lib/mod.py" = true ∧
    find_spec "/tmp/app" (some "/tmp/app_lib/mod.py")
      = some "/tmp/app_lib/mod.py" := by
  constructor
  · decide
  · decide

/-- C5 (amended): the interceptor declines (returns no spec) every load
whose resolution failed, whose resolved origin does not extend the
configured base path as a string prefix, or whose origin does not end in
`.py`; a module outside the base directory whose absolute path happens
to extend the base path as a string (a sibling directory sharing the
name as a prefix) is still claimed. -/
theorem c5_decline (base p : String)
    (h : str_starts_with p base = false ∨ str_ends_with p ".py" = false) :
    find_spec base none = none ∧ find_spec base (some p) = none := by
  refine ⟨rfl, ?_⟩
  cases h with
  | inl h => simp [find_spec, h]
  | inr h =>
      by_cases hs : str_starts_with p base <;> simp [find_spec, h, hs]

/-- C5 witness: a module outside the base path string and a non-`.py`
origin inside it are both declined, as is a failed resolution. -/
theorem c5_decline_witness :
    (find_spec "/tmp/app" none = none ∧
      find_spec "/tmp/app" (some "/etc/conf.py") = none) ∧
    find_spec "/tmp/app" (some "/tmp/app/data.json") = none :=
  ⟨c5_decline "/tmp/app" "/etc/conf.py" (Or.inl (by decide)),
   (c5_decline "/tmp/app" "/tmp/app/data.json" (Or.inr (by decide))).2⟩

/-- C2 evidence. The claim (and the code's own fallback comment) says a
transform failure degrades to executing the original unmodified source
so the module load completes. The except-branch instead calls
`importlib.util.exec_module(module)`; `importlib.util` has no attribute
`exec_module`, so the fallback itself raises `AttributeError` and the
module load fails. Evaluated here on a claimed in-tree module whose
transform raises. -/
theorem c2_fallback_raises :
    exec_module (some "/tmp/app/mod.py") "def f(:"
        (fun _ => Except.error "SyntaxError: invalid syntax")
      = Except.error (PyErr.attributeError "importlib.util" "exec_module") := rfl

/-- C3: the drain guarantee. For every interleaving of the stop signal
(`k` main-loop iterations before `_stop_event` is observed) and every
list of entries emitted before `shutdown` enqueues the sentinel, the
worker hands exactly those entries, in order, to the persistence
backend: none is lost and none is duplicated. -/
theorem c3_drain_guarantee (α : Type) (k : Nat) (es : List α) :
    worker_run k (shutdown_queue es) = es := by
  induction es generalizing k with
  | nil =>
      cases k with
      | zero => rfl
      | succ k => rfl
  | cons e rest ih =>
      cases k with
      | zero =>
          show [] ++ worker_drain (shutdown_queue (e :: rest)) = e :: rest
          simp only [List.nil_append, worker_drain, shutdown_queue,
            List.filterMap_append, List.filterMap_map]
          simp
      | succ k =>
          have step : worker_run (k + 1) (shutdown_queue (e :: rest))
              = e :: worker_run k (shutdown_queue rest) := by
            simp [worker_run, shutdown_queue, worker_main]
          rw [step, ih]

/-- C6: when the wrapped callable raises on an invocation, the wrapper
propagates exactly that exception (neither suppressed nor altered) and
emits nothing to the pipeline — no ProfileEntry is produced. -/
theorem c6_exception_transparent {α β E : Type} (fn : String)
    (t0 mb ma : ℚ) (plog : String) (call : α → Except E β) (x : α) (e : E)
    (h : call x = Except.error e) :
    tracked_profile fn t0 mb ma plog call x = Except.error e ∧
    emitted_entries (tracked_profile fn t0 mb ma plog call x) = [] := by
  simp [tracked_profile, h, emitted_entries]

/-- C6 witness: a callable that raises propagates its error through the
wrapper with an empty emission list. -/
theorem c6_exception_transparent_witness :
    tracked_profile "g" 0 10 12 ""
        (fun _ : Nat => (Except.error "boom" : Except String Nat)) 0
      = Except.error "boom" ∧
    emitted_entries (tracked_profile "g" 0 10 12 ""
        (fun _ : Nat => (Except.error "boom" : Except String Nat)) 0) = [] :=
  c6_exception_transparent "g" 0 10 12 ""
    (fun _ : Nat => (Except.error "boom" : Except String Nat)) 0 "boom" rfl

/-- C9: every ProfileEntry produced by a wrapper invocation satisfies
`mem_diff = mem_after - mem_before`, where the two fields are the
samples taken before and after the wrapped call (exact over the rational
model of the float samples). -/
theorem c9_mem_diff {α β E : Type} (fn : String) (t0 mb ma : ℚ)
    (plog : String) (call : α → Except E β) (x : α) (en : ProfileEntry)
    (h : en ∈ emitted_entries (tracked_profile fn t0 mb ma plog call x)) :
    en.mem_diff = en.mem_after - en.mem_before := by
  unfold tracked_profile at h
  cases hc : call x with
  | error e => rw [hc] at h; simp [emitted_entries] at h
  | ok v =>
      rw [hc] at h
      simp only [emitted_entries, List.mem_singleton] at h
      subst h
      rfl

/-- C9 witness: the entry of a concrete successful invocation with
samples 10 MB and 12 MB carries `mem_diff = 2`. -/
theorem c9_mem_diff_witness :
    (⟨"f", 10, 12, 2, 0, "log"⟩ : ProfileEntry).mem_diff
      = (⟨"f", 10, 12, 2, 0, "log"⟩ : ProfileEntry).mem_after
        - (⟨"f", 10, 12, 2, 0, "log"⟩ : ProfileEntry).mem_before :=
  c9_mem_diff "f" 0 10 12 "log"
    (fun _ : Nat => (Except.ok 5 : Except String Nat)) 0
    ⟨"f", 10, 12, 2, 0, "log"⟩ (by norm_num [tracked_profile, emitted_entries])

/-- C7: in the relational backend, the hash is a function of the log text
alone (identical text yields an identical hash), and handling two
entries with byte-identical log text from a fresh database yields
exactly one `logs` row and two `entries` rows, both referencing that
single hash. -/
theorem c7_dedup (hashFn : String → String) (e1 e2 : ProfileEntry)
    (h : e1.log = e2.log) :
    hashFn e1.log = hashFn e2.log ∧
    (sqlite_handle hashFn (sqlite_handle hashFn emptyDB e1) e2).logs.length = 1 ∧
    (sqlite_handle hashFn (sqlite_handle hashFn emptyDB e1) e2).entries.length = 2 ∧
    (sqlite_handle hashFn (sqlite_handle hashFn emptyDB e1) e2).entries.map
        (fun r => r.log_hash)
      = [hashFn e1.log, hashFn e1.log] := by
  refine ⟨by rw [h], ?_, ?_, ?_⟩ <;>
    simp [sqlite_handle, insert_or_ignore_log, emptyDB, h]

/-- C7 witness: two identical entries against the identity digest give
one log row and two entry rows referencing the same hash. -/
theorem c7_dedup_witness :
    (fun s : String => s) "LINE A" = (fun s : String => s) "LINE A" ∧
    (sqlite_handle (fun s => s)
        (sqlite_handle (fun s => s) emptyDB ⟨"f", 10, 12, 2, 0, "LINE A"⟩)
        ⟨"f", 10, 12, 2, 0, "LINE A"⟩).logs.length = 1 ∧
    (sqlite_handle (fun s => s)
        (sqlite_handle (fun s => s) emptyDB ⟨"f", 10, 12, 2, 0, "LINE A"⟩)
        ⟨"f", 10, 12, 2, 0, "LINE A"⟩).entries.length = 2 ∧
    (sqlite_handle (fun s => s)
        (sqlite_handle (fun s => s) emptyDB ⟨"f", 10, 12, 2, 0, "LINE A"⟩)
        ⟨"f", 10, 12, 2, 0, "LINE A"⟩).entries.map (fun r => r.log_hash)
      = [(fun s : String => s) "LINE A", (fun s : String => s) "LINE A"] :=
  c7_dedup (fun s => s) ⟨"f", 10, 12, 2, 0, "LINE A"⟩
    ⟨"f", 10, 12, 2, 0, "LINE A"⟩ rfl
